import Mathlib

/-!
Verification of the polynomial expression-tree module (`polynomial.py`).

The module defines a closed set of expression variants (`X`, `Int`, `Add`,
`Mul`, `Sub`, `Div`) with three recursive operations: `evaluate` (numeric
evaluation at a variable value, failing on division by zero), `simplify`
(bottom-up identity and constant-folding rewriting) and rendering to a
precedence-aware infix string (`__repr__`).

Embedding choices: Python integers are `ℤ`; Python floor division `//` is
`Int.fdiv`; a `ZeroDivisionError` raised by `evaluate` is `none` in
`Option ℤ`.  `simplify` and rendering are total, matching the source.
-/

/-- The expression tree: variants `X`, `Int`, `Add`, `Mul`, `Sub`, `Div`
of `polynomial.py`. -/
inductive Expr : Type where
  | X : Expr
  | Int : ℤ → Expr
  | Add : Expr → Expr → Expr
  | Mul : Expr → Expr → Expr
  | Sub : Expr → Expr → Expr
  | Div : Expr → Expr → Expr
  deriving DecidableEq

/-- `evaluate` of each class: `X` evaluates to the given value, `Int` to
itself, composites evaluate both children and combine; `Div` raises
(returns `none`) when the denominator value is 0, otherwise floor-divides. -/
def evaluate : Expr → ℤ → Option ℤ
  | .X, x => some x
  | .Int i, _ => some i
  | .Add p1 p2, x =>
    (evaluate p1 x).bind fun v1 => (evaluate p2 x).bind fun v2 => some (v1 + v2)
  | .Mul p1 p2, x =>
    (evaluate p1 x).bind fun v1 => (evaluate p2 x).bind fun v2 => some (v1 * v2)
  | .Sub p1 p2, x =>
    (evaluate p1 x).bind fun v1 => (evaluate p2 x).bind fun v2 => some (v1 - v2)
  | .Div p1 p2, x =>
    (evaluate p1 x).bind fun v1 => (evaluate p2 x).bind fun v2 =>
      if v2 = 0 then none else some (Int.fdiv v1 v2)

/-- The `isinstance(e, Int)` test, returning the wrapped value (`e.i`). -/
def intVal : Expr → Option ℤ
  | .Int i => some i
  | _ => none

/-- `Add.simplify` applied to already-simplified operands: `0 + X -> X`,
`X + 0 -> X`, constant folding, otherwise rebuild. -/
def addSimp (s1 s2 : Expr) : Expr :=
  if s1 = .Int 0 then s2
  else if s2 = .Int 0 then s1
  else match intVal s1, intVal s2 with
    | some a, some b => .Int (a + b)
    | _, _ => .Add s1 s2

/-- `Mul.simplify` applied to already-simplified operands: zero rule first,
then `1 * X -> X`, `X * 1 -> X`, constant folding, otherwise rebuild. -/
def mulSimp (s1 s2 : Expr) : Expr :=
  if s1 = .Int 0 ∨ s2 = .Int 0 then .Int 0
  else if s1 = .Int 1 then s2
  else if s2 = .Int 1 then s1
  else match intVal s1, intVal s2 with
    | some a, some b => .Int (a * b)
    | _, _ => .Mul s1 s2

/-- `Sub.simplify` applied to already-simplified operands: `X - 0 -> X`,
constant folding, otherwise rebuild. -/
def subSimp (s1 s2 : Expr) : Expr :=
  if s2 = .Int 0 then s1
  else match intVal s1, intVal s2 with
    | some a, some b => .Int (a - b)
    | _, _ => .Sub s1 s2

/-- `Div.simplify` applied to already-simplified operands: `0 / X -> 0`
except `0 / 0` which is kept, `X / 1 -> X`, constant folding guarded by a
nonzero denominator (a constant zero denominator keeps the `Div` node so
that `evaluate` raises), otherwise rebuild. -/
def divSimp (s1 s2 : Expr) : Expr :=
  if s1 = .Int 0 then
    if s2 = .Int 0 then .Div s1 s2 else .Int 0
  else if s2 = .Int 1 then s1
  else match intVal s1, intVal s2 with
    | some a, some b => if b = 0 then .Div s1 s2 else .Int (Int.fdiv a b)
    | _, _ => .Div s1 s2

/-- `simplify` of each class: leaves return themselves, composites first
simplify both operands and then apply the per-operator rules. -/
def simplify : Expr → Expr
  | .X => .X
  | .Int i => .Int i
  | .Add p1 p2 => addSimp (simplify p1) (simplify p2)
  | .Mul p1 p2 => mulSimp (simplify p1) (simplify p2)
  | .Sub p1 p2 => subSimp (simplify p1) (simplify p2)
  | .Div p1 p2 => divSimp (simplify p1) (simplify p2)

/-- `isinstance(e, (Add, Sub))`: the parenthesization test of
`Mul.__repr__` and `Div.__repr__` and of the right operand in
`Sub.__repr__`. -/
def isAddSub : Expr → Bool
  | .Add _ _ => true
  | .Sub _ _ => true
  | _ => false

/-- `isinstance(e, Add)`: the parenthesization test for the left operand in
`Sub.__repr__`. -/
def isAdd : Expr → Bool
  | .Add _ _ => true
  | _ => false

/-- `__repr__` of each class: `X` renders as `"X"`, `Int` as its decimal
string, `Add` joins with `" + "` unparenthesized, `Mul`/`Div` wrap an
operand in `"( "`/`" )"` iff it is `Add` or `Sub`, and `Sub` wraps its
left operand iff it is `Add` and its right iff it is `Add` or `Sub`. -/
def render : Expr → String
  | .X => "X"
  | .Int i => toString i
  | .Add p1 p2 => render p1 ++ " + " ++ render p2
  | .Mul p1 p2 =>
    (if isAddSub p1 then "( " ++ render p1 ++ " )" else render p1) ++ " * " ++
      (if isAddSub p2 then "( " ++ render p2 ++ " )" else render p2)
  | .Sub p1 p2 =>
    (if isAdd p1 then "( " ++ render p1 ++ " )" else render p1) ++ " - " ++
      (if isAddSub p2 then "( " ++ render p2 ++ " )" else render p2)
  | .Div p1 p2 =>
    (if isAddSub p1 then "( " ++ render p1 ++ " )" else render p1) ++ " / " ++
      (if isAddSub p2 then "( " ++ render p2 ++ " )" else render p2)

/-- Normal form of `simplify`: no subtree is a redex of the rewrite rules.
An `Add` may not have a `Int 0` operand nor two `Int` operands; a `Sub`
may not have a `Int 0` right operand nor two `Int` operands; a `Mul` may
not have a `Int 0` or `Int 1` operand nor two `Int` operands; a `Div` may
not have a `Int 0` numerator unless its denominator is `Int 0`, may not
have a `Int 1` denominator, and may not have two `Int` operands unless the
denominator is `Int 0`. -/
def noRedex : Expr → Bool
  | .X => true
  | .Int _ => true
  | .Add a b => noRedex a && noRedex b &&
      !decide (a = .Int 0) && !decide (b = .Int 0) &&
      !((intVal a).isSome && (intVal b).isSome)
  | .Sub a b => noRedex a && noRedex b &&
      !decide (b = .Int 0) &&
      !((intVal a).isSome && (intVal b).isSome)
  | .Mul a b => noRedex a && noRedex b &&
      !decide (a = .Int 0) && !decide (b = .Int 0) &&
      !decide (a = .Int 1) && !decide (b = .Int 1) &&
      !((intVal a).isSome && (intVal b).isSome)
  | .Div a b => noRedex a && noRedex b &&
      !(decide (a = .Int 0) && !decide (b = .Int 0)) &&
      !decide (b = .Int 1) &&
      !((intVal a).isSome && (intVal b).isSome && !decide (b = .Int 0))

theorem intVal_eq_some {e : Expr} {a : ℤ} : intVal e = some a ↔ e = .Int a := by
  cases e <;> simp [intVal]

theorem addSimp_eval {s1 s2 : Expr} {x v1 v2 : ℤ}
    (h1 : evaluate s1 x = some v1) (h2 : evaluate s2 x = some v2) :
    evaluate (addSimp s1 s2) x = some (v1 + v2) := by
  unfold addSimp
  by_cases e1 : s1 = .Int 0
  · subst e1
    simp only [evaluate, Option.some.injEq] at h1
    simp [if_pos, ← h1, h2]
  by_cases e2 : s2 = .Int 0
  · subst e2
    simp only [evaluate, Option.some.injEq] at h2
    simp [e1, ← h2, h1]
  rcases hi1 : intVal s1 with _ | a <;> rcases hi2 : intVal s2 with _ | b <;>
    simp only [e1, e2, if_false, hi1, hi2] <;>
    simp_all [evaluate, intVal_eq_some]

theorem mulSimp_eval {s1 s2 : Expr} {x v1 v2 : ℤ}
    (h1 : evaluate s1 x = some v1) (h2 : evaluate s2 x = some v2) :
    evaluate (mulSimp s1 s2) x = some (v1 * v2) := by
  unfold mulSimp
  by_cases e0 : s1 = .Int 0 ∨ s2 = .Int 0
  · rw [if_pos e0]
    rcases e0 with e0 | e0
    · subst e0
      simp only [evaluate, Option.some.injEq] at h1
      subst h1
      simp [evaluate]
    · subst e0
      simp only [evaluate, Option.some.injEq] at h2
      subst h2
      simp [evaluate]
  rw [if_neg e0]
  by_cases e1 : s1 = .Int 1
  · subst e1
    rw [if_pos rfl]
    simp only [evaluate, Option.some.injEq] at h1
    subst h1
    simpa using h2
  rw [if_neg e1]
  by_cases e2 : s2 = .Int 1
  · subst e2
    rw [if_pos rfl]
    simp only [evaluate, Option.some.injEq] at h2
    subst h2
    simpa using h1
  rw [if_neg e2]
  rcases hi1 : intVal s1 with _ | a <;> rcases hi2 : intVal s2 with _ | b <;>
    simp only [hi1, hi2] <;>
    simp_all [evaluate, intVal_eq_some]

theorem subSimp_eval {s1 s2 : Expr} {x v1 v2 : ℤ}
    (h1 : evaluate s1 x = some v1) (h2 : evaluate s2 x = some v2) :
    evaluate (subSimp s1 s2) x = some (v1 - v2) := by
  unfold subSimp
  by_cases e2 : s2 = .Int 0
  · subst e2
    simp only [evaluate, Option.some.injEq] at h2
    simp [← h2, h1]
  rcases hi1 : intVal s1 with _ | a <;> rcases hi2 : intVal s2 with _ | b <;>
    simp only [e2, if_false, hi1, hi2] <;>
    simp_all [evaluate, intVal_eq_some]

theorem divSimp_eval {s1 s2 : Expr} {x v1 v2 : ℤ}
    (h1 : evaluate s1 x = some v1) (h2 : evaluate s2 x = some v2)
    (hz : v2 ≠ 0) :
    evaluate (divSimp s1 s2) x = some (Int.fdiv v1 v2) := by
  unfold divSimp
  by_cases e1 : s1 = .Int 0
  · subst e1
    rw [if_pos rfl]
    simp only [evaluate, Option.some.injEq] at h1
    subst h1
    by_cases e2 : s2 = .Int 0
    · subst e2
      simp only [evaluate, Option.some.injEq] at h2
      exact absurd h2.symm hz
    · rw [if_neg e2]
      simp [evaluate, Int.zero_fdiv]
  rw [if_neg e1]
  by_cases e2 : s2 = .Int 1
  · subst e2
    rw [if_pos rfl]
    simp only [evaluate, Option.some.injEq] at h2
    subst h2
    simpa [Int.fdiv_one] using h1
  rw [if_neg e2]
  rcases hi1 : intVal s1 with _ | a <;> rcases hi2 : intVal s2 with _ | b <;>
    simp only [hi1, hi2] <;>
    simp_all [evaluate, intVal_eq_some]

theorem noRedex_add {a b : Expr} : noRedex (.Add a b) = true ↔
    noRedex a = true ∧ noRedex b = true ∧ a ≠ .Int 0 ∧ b ≠ .Int 0 ∧
    ((intVal a).isSome = false ∨ (intVal b).isSome = false) := by
  simp [noRedex]
  tauto

theorem noRedex_sub {a b : Expr} : noRedex (.Sub a b) = true ↔
    noRedex a = true ∧ noRedex b = true ∧ b ≠ .Int 0 ∧
    ((intVal a).isSome = false ∨ (intVal b).isSome = false) := by
  simp [noRedex]
  tauto

theorem noRedex_mul {a b : Expr} : noRedex (.Mul a b) = true ↔
    noRedex a = true ∧ noRedex b = true ∧ a ≠ .Int 0 ∧ b ≠ .Int 0 ∧
    a ≠ .Int 1 ∧ b ≠ .Int 1 ∧
    ((intVal a).isSome = false ∨ (intVal b).isSome = false) := by
  simp [noRedex]
  tauto

theorem noRedex_div {a b : Expr} : noRedex (.Div a b) = true ↔
    noRedex a = true ∧ noRedex b = true ∧ (a = .Int 0 → b = .Int 0) ∧
    b ≠ .Int 1 ∧
    ((intVal a).isSome = false ∨ (intVal b).isSome = false ∨ b = .Int 0) := by
  simp [noRedex]
  tauto

theorem addSimp_noRedex {s1 s2 : Expr}
    (h1 : noRedex s1 = true) (h2 : noRedex s2 = true) :
    noRedex (addSimp s1 s2) = true := by
  unfold addSimp
  by_cases e1 : s1 = .Int 0
  · rw [if_pos e1]; exact h2
  rw [if_neg e1]
  by_cases e2 : s2 = .Int 0
  · rw [if_pos e2]; exact h1
  rw [if_neg e2]
  rcases hi1 : intVal s1 with _ | a <;> rcases hi2 : intVal s2 with _ | b <;>
    simp only [hi1, hi2] <;>
    simp [noRedex, noRedex_add, h1, h2, e1, e2, hi1, hi2]

theorem subSimp_noRedex {s1 s2 : Expr}
    (h1 : noRedex s1 = true) (h2 : noRedex s2 = true) :
    noRedex (subSimp s1 s2) = true := by
  unfold subSimp
  by_cases e2 : s2 = .Int 0
  · rw [if_pos e2]; exact h1
  rw [if_neg e2]
  rcases hi1 : intVal s1 with _ | a <;> rcases hi2 : intVal s2 with _ | b <;>
    simp only [hi1, hi2] <;>
    simp [noRedex, noRedex_sub, h1, h2, e2, hi1, hi2]

theorem mulSimp_noRedex {s1 s2 : Expr}
    (h1 : noRedex s1 = true) (h2 : noRedex s2 = true) :
    noRedex (mulSimp s1 s2) = true := by
  unfold mulSimp
  by_cases e0 : s1 = .Int 0 ∨ s2 = .Int 0
  · rw [if_pos e0]; simp [noRedex]
  rw [if_neg e0]
  rw [not_or] at e0
  by_cases e1 : s1 = .Int 1
  · rw [if_pos e1]; exact h2
  rw [if_neg e1]
  by_cases e2 : s2 = .Int 1
  · rw [if_pos e2]; exact h1
  rw [if_neg e2]
  rcases hi1 : intVal s1 with _ | a <;> rcases hi2 : intVal s2 with _ | b <;>
    simp only [hi1, hi2] <;>
    simp [noRedex, noRedex_mul, h1, h2, e0.1, e0.2, e1, e2, hi1, hi2]

theorem divSimp_noRedex {s1 s2 : Expr}
    (h1 : noRedex s1 = true) (h2 : noRedex s2 = true) :
    noRedex (divSimp s1 s2) = true := by
  unfold divSimp
  by_cases e1 : s1 = .Int 0
  · rw [if_pos e1]
    by_cases e2 : s2 = .Int 0
    · rw [if_pos e2]; subst e1; subst e2; simp [noRedex, intVal]
    · rw [if_neg e2]; simp [noRedex]
  rw [if_neg e1]
  by_cases e2 : s2 = .Int 1
  · rw [if_pos e2]; exact h1
  rw [if_neg e2]
  rcases hi1 : intVal s1 with _ | a <;> rcases hi2 : intVal s2 with _ | b <;>
    simp only [hi1, hi2]
  · simp [noRedex_div, h1, h2, e1, e2, hi1, hi2]
  · simp [noRedex_div, h1, h2, e1, e2, hi1, hi2]
  · simp [noRedex_div, h1, h2, e1, e2, hi1, hi2]
  · by_cases hb : b = 0
    · subst hb
      rw [if_pos rfl]
      rw [intVal_eq_some] at hi2
      simp [noRedex_div, noRedex, h1, h2, e1, hi2]
    · rw [if_neg hb]
      simp [noRedex]

theorem noRedex_simplify : ∀ t : Expr, noRedex (simplify t) = true := by
  intro t
  induction t with
  | X => simp [simplify, noRedex]
  | Int i => simp [simplify, noRedex]
  | Add p1 p2 ih1 ih2 => rw [simplify]; exact addSimp_noRedex ih1 ih2
  | Mul p1 p2 ih1 ih2 => rw [simplify]; exact mulSimp_noRedex ih1 ih2
  | Sub p1 p2 ih1 ih2 => rw [simplify]; exact subSimp_noRedex ih1 ih2
  | Div p1 p2 ih1 ih2 => rw [simplify]; exact divSimp_noRedex ih1 ih2

theorem simplify_of_noRedex : ∀ t : Expr, noRedex t = true → simplify t = t := by
  intro t
  induction t with
  | X => intro _; rfl
  | Int i => intro _; rfl
  | Add a b ih1 ih2 =>
    intro h
    rw [noRedex_add] at h
    obtain ⟨ha, hb, ha0, hb0, hii⟩ := h
    rw [simplify, ih1 ha, ih2 hb]
    unfold addSimp
    rw [if_neg ha0, if_neg hb0]
    rcases hi1 : intVal a with _ | a' <;> rcases hi2 : intVal b with _ | b' <;>
      simp_all
  | Mul a b ih1 ih2 =>
    intro h
    rw [noRedex_mul] at h
    obtain ⟨ha, hb, ha0, hb0, ha1, hb1, hii⟩ := h
    rw [simplify, ih1 ha, ih2 hb]
    unfold mulSimp
    rw [if_neg (not_or.mpr ⟨ha0, hb0⟩), if_neg ha1, if_neg hb1]
    rcases hi1 : intVal a with _ | a' <;> rcases hi2 : intVal b with _ | b' <;>
      simp_all
  | Sub a b ih1 ih2 =>
    intro h
    rw [noRedex_sub] at h
    obtain ⟨ha, hb, hb0, hii⟩ := h
    rw [simplify, ih1 ha, ih2 hb]
    unfold subSimp
    rw [if_neg hb0]
    rcases hi1 : intVal a with _ | a' <;> rcases hi2 : intVal b with _ | b' <;>
      simp_all
  | Div a b ih1 ih2 =>
    intro h
    rw [noRedex_div] at h
    obtain ⟨ha, hb, h0, hb1, hd⟩ := h
    by_cases e1 : a = .Int 0
    · obtain rfl := e1
      obtain rfl := h0 rfl
      simp [simplify, divSimp]
    rw [simplify, ih1 ha, ih2 hb]
    unfold divSimp
    rw [if_neg e1, if_neg hb1]
    rcases hi1 : intVal a with _ | a' <;> rcases hi2 : intVal b with _ | b' <;>
      simp_all [intVal]

/-- C1: for every expression tree `t` and every integer `x` for which
`evaluate t x` succeeds (no division by zero), evaluating the simplified
tree at `x` returns the same constant value. -/
theorem evaluate_simplify_preserves (t : Expr) (x v : ℤ)
    (h : evaluate t x = some v) : evaluate (simplify t) x = some v := by
  induction t generalizing v with
  | X => simpa [simplify] using h
  | Int i => simpa [simplify] using h
  | Add p1 p2 ih1 ih2 =>
    rw [simplify]
    simp only [evaluate] at h
    rcases h1 : evaluate p1 x with _ | v1 <;> rw [h1] at h
    · simp at h
    rcases h2 : evaluate p2 x with _ | v2 <;> rw [h2] at h
    · simp at h
    simp only [Option.some_bind, Option.some.injEq] at h
    rw [← h]
    exact addSimp_eval (ih1 v1 h1) (ih2 v2 h2)
  | Mul p1 p2 ih1 ih2 =>
    rw [simplify]
    simp only [evaluate] at h
    rcases h1 : evaluate p1 x with _ | v1 <;> rw [h1] at h
    · simp at h
    rcases h2 : evaluate p2 x with _ | v2 <;> rw [h2] at h
    · simp at h
    simp only [Option.some_bind, Option.some.injEq] at h
    rw [← h]
    exact mulSimp_eval (ih1 v1 h1) (ih2 v2 h2)
  | Sub p1 p2 ih1 ih2 =>
    rw [simplify]
    simp only [evaluate] at h
    rcases h1 : evaluate p1 x with _ | v1 <;> rw [h1] at h
    · simp at h
    rcases h2 : evaluate p2 x with _ | v2 <;> rw [h2] at h
    · simp at h
    simp only [Option.some_bind, Option.some.injEq] at h
    rw [← h]
    exact subSimp_eval (ih1 v1 h1) (ih2 v2 h2)
  | Div p1 p2 ih1 ih2 =>
    rw [simplify]
    simp only [evaluate] at h
    rcases h1 : evaluate p1 x with _ | v1 <;> rw [h1] at h
    · simp at h
    rcases h2 : evaluate p2 x with _ | v2 <;> rw [h2] at h
    · simp at h
    simp only [Option.some_bind] at h
    by_cases hz : v2 = 0
    · rw [if_pos hz] at h; exact absurd h (by simp)
    rw [if_neg hz, Option.some.injEq] at h
    rw [← h]
    exact divSimp_eval (ih1 v1 h1) (ih2 v2 h2) hz

/-- Witness for C1 at `t = Add X (Int 0)`, `x = 5`. -/
theorem evaluate_simplify_preserves_witness :
    evaluate (simplify (.Add .X (.Int 0))) 5 = some 5 :=
  evaluate_simplify_preserves (.Add .X (.Int 0)) 5 5 rfl

/-- C2: `simplify` is idempotent on every tree, and in particular both
results render to identical strings. -/
theorem simplify_idempotent (t : Expr) :
    simplify (simplify t) = simplify t ∧
    render (simplify (simplify t)) = render (simplify t) := by
  have h := simplify_of_noRedex (simplify t) (noRedex_simplify t)
  exact ⟨h, by rw [h]⟩

/-- C3: `evaluate` on a `Div` node evaluates both operands; when they
succeed it fails exactly when the denominator value is 0 and otherwise
floor-divides; concretely `7 / 2 = 3`, `-7 / 2 = -4` (floor, not
truncation) and `5 / 0` fails. -/
theorem div_evaluate_semantics :
    (∀ (a b : Expr) (x v1 v2 : ℤ), evaluate a x = some v1 →
      evaluate b x = some v2 →
      evaluate (.Div a b) x =
        if v2 = 0 then none else some (Int.fdiv v1 v2)) ∧
    (∀ x : ℤ, evaluate (.Div (.Int 7) (.Int 2)) x = some 3) ∧
    (∀ x : ℤ, evaluate (.Div (.Int (-7)) (.Int 2)) x = some (-4)) ∧
    (∀ x : ℤ, evaluate (.Div (.Int 5) (.Int 0)) x = none) := by
  refine ⟨?_, fun x => rfl, fun x => rfl, fun x => rfl⟩
  intro a b x v1 v2 h1 h2
  simp [evaluate, h1, h2]

/-- Witness for C3 at `a = X`, `b = Int 2`, `x = 9`. -/
theorem div_evaluate_semantics_witness :
    evaluate (.Div .X (.Int 2)) 9 =
      if (2 : ℤ) = 0 then none else some (Int.fdiv 9 2) :=
  div_evaluate_semantics.1 .X (.Int 2) 9 9 2 rfl rfl

/-- C4: `simplify` is total and whenever the simplified denominator of a
`Div` is the constant 0 it returns the unreduced `Div` node; in particular
`Div (Int 0) (Int 0)` is kept as a `Div` node and evaluating it fails. -/
theorem simplify_div_zero_guard :
    (∀ a b : Expr, simplify b = .Int 0 →
      simplify (.Div a b) = .Div (simplify a) (.Int 0)) ∧
    simplify (.Div (.Int 0) (.Int 0)) = .Div (.Int 0) (.Int 0) ∧
    (∀ x : ℤ, evaluate (simplify (.Div (.Int 0) (.Int 0))) x = none) := by
  refine ⟨?_, rfl, fun x => rfl⟩
  intro a b hb
  rw [simplify, hb]
  unfold divSimp
  by_cases e1 : simplify a = .Int 0
  · rw [if_pos e1, if_pos rfl, e1]
  rw [if_neg e1, if_neg (by decide : (Expr.Int 0) ≠ .Int 1)]
  rcases hi1 : intVal (simplify a) with _ | a' <;> simp [hi1, intVal]

/-- Witness for C4 at `a = X`, `b = Int 0`. -/
theorem simplify_div_zero_guard_witness :
    simplify (.Div .X (.Int 0)) = .Div (simplify .X) (.Int 0) :=
  simplify_div_zero_guard.1 .X (.Int 0) rfl

/-- C5: the per-variant `evaluate` equations: `X` evaluates to the given
value, `Int c` to `c` ignoring the value, and `Add`/`Sub`/`Mul` to the
sum/difference/product of their operands' values. -/
theorem evaluate_variant_equations :
    (∀ x : ℤ, evaluate .X x = some x) ∧
    (∀ c x : ℤ, evaluate (.Int c) x = some c) ∧
    (∀ (a b : Expr) (x v1 v2 : ℤ), evaluate a x = some v1 →
      evaluate b x = some v2 →
      evaluate (.Add a b) x = some (v1 + v2) ∧
      evaluate (.Sub a b) x = some (v1 - v2) ∧
      evaluate (.Mul a b) x = some (v1 * v2)) := by
  refine ⟨fun x => rfl, fun c x => rfl, ?_⟩
  intro a b x v1 v2 h1 h2
  refine ⟨?_, ?_, ?_⟩ <;> simp [evaluate, h1, h2]

/-- Witness for C5 at `a = Int 4`, `b = Int 3`, `x = 5`. -/
theorem evaluate_variant_equations_witness :
    evaluate .X 5 = some 5 ∧ evaluate (.Int 4) 5 = some 4 ∧
    evaluate (.Add (.Int 4) (.Int 3)) 5 = some (4 + 3) :=
  ⟨evaluate_variant_equations.1 5, evaluate_variant_equations.2.1 4 5,
    (evaluate_variant_equations.2.2 (.Int 4) (.Int 3) 5 4 3 rfl rfl).1⟩

/-- C6: in `Mul.simplify` the zero rule has priority: whenever either
simplified operand is `Int 0` the result is `Int 0`, in particular
`simplify (Mul (Int 0) (Int 1)) = Int 0`. -/
theorem mul_zero_rule_priority :
    (∀ a b : Expr, (simplify a = .Int 0 ∨ simplify b = .Int 0) →
      simplify (.Mul a b) = .Int 0) ∧
    simplify (.Mul (.Int 0) (.Int 1)) = .Int 0 := by
  refine ⟨?_, rfl⟩
  intro a b h
  rw [simplify]
  unfold mulSimp
  rw [if_pos h]

/-- Witness for C6 at `a = Int 0`, `b = X`. -/
theorem mul_zero_rule_priority_witness :
    simplify (.Mul (.Int 0) .X) = .Int 0 :=
  mul_zero_rule_priority.1 (.Int 0) .X (Or.inl rfl)

/-- C7: rendering parenthesization: `Add` never parenthesizes, `Mul` and
`Div` parenthesize an operand iff it is `Add` or `Sub`, `Sub`
parenthesizes its left operand iff it is `Add` and its right iff it is
`Add` or `Sub`; with the two concrete examples. -/
theorem render_parenthesization :
    (∀ e : Expr, isAddSub e = true ↔
      (∃ a b, e = .Add a b) ∨ (∃ a b, e = .Sub a b)) ∧
    (∀ e : Expr, isAdd e = true ↔ ∃ a b, e = .Add a b) ∧
    (∀ a b : Expr, render (.Add a b) = render a ++ " + " ++ render b) ∧
    (∀ a b : Expr, render (.Mul a b) =
      (if isAddSub a then "( " ++ render a ++ " )" else render a) ++ " * " ++
        (if isAddSub b then "( " ++ render b ++ " )" else render b)) ∧
    (∀ a b : Expr, render (.Div a b) =
      (if isAddSub a then "( " ++ render a ++ " )" else render a) ++ " / " ++
        (if isAddSub b then "( " ++ render b ++ " )" else render b)) ∧
    (∀ a b : Expr, render (.Sub a b) =
      (if isAdd a then "( " ++ render a ++ " )" else render a) ++ " - " ++
        (if isAddSub b then "( " ++ render b ++ " )" else render b)) ∧
    render (.Mul (.Add (.Int 1) (.Int 2)) (.Int 3)) = "( 1 + 2 ) * 3" ∧
    render (.Sub (.Int 10) (.Sub (.Int 3) (.Int 1))) = "10 - ( 3 - 1 )" := by
  refine ⟨?_, ?_, fun a b => rfl, fun a b => rfl, fun a b => rfl,
    fun a b => rfl, by decide, by decide⟩
  · intro e; cases e <;> simp [isAddSub]
  · intro e; cases e <;> simp [isAdd]

/-- C8: every simplified tree is in normal form: no subtree of
`simplify t` is a redex of the rewrite rules (`noRedex` spells out the
forbidden patterns per operator; the only all-constant composite that may
remain is a `Div` whose denominator is `Int 0`). -/
theorem simplify_normal_form (t : Expr) : noRedex (simplify t) = true :=
  noRedex_simplify t

/-- C9: simplification can erase a division-by-zero failure: at
`t = Mul (Div (Int 1) (Int 0)) (Int 0)` and any `x`, `evaluate t x` fails
while `simplify t = Int 0` and evaluating it succeeds with value 0. -/
theorem simplify_erases_div_failure (x : ℤ) :
    evaluate (.Mul (.Div (.Int 1) (.Int 0)) (.Int 0)) x = none ∧
    simplify (.Mul (.Div (.Int 1) (.Int 0)) (.Int 0)) = .Int 0 ∧
    evaluate (simplify (.Mul (.Div (.Int 1) (.Int 0)) (.Int 0))) x = some 0 :=
  ⟨rfl, rfl, rfl⟩

/-- C10: rendering is not injective up to value:
`Mul (Int 2) (Div (Int 3) (Int 2))` and
`Div (Mul (Int 2) (Int 3)) (Int 2)` are distinct trees that render to the
same string `"2 * 3 / 2"` yet evaluate to 2 and 3 respectively. -/
theorem render_value_collision (x : ℤ) :
    render (.Mul (.Int 2) (.Div (.Int 3) (.Int 2))) =
      render (.Div (.Mul (.Int 2) (.Int 3)) (.Int 2)) ∧
    render (.Mul (.Int 2) (.Div (.Int 3) (.Int 2))) = "2 * 3 / 2" ∧
    evaluate (.Mul (.Int 2) (.Div (.Int 3) (.Int 2))) x = some 2 ∧
    evaluate (.Div (.Mul (.Int 2) (.Int 3)) (.Int 2)) x = some 3 ∧
    (Expr.Mul (.Int 2) (.Div (.Int 3) (.Int 2)) ≠
      Expr.Div (.Mul (.Int 2) (.Int 3)) (.Int 2)) :=
  ⟨by decide, by decide, rfl, rfl, by decide⟩
